import Mathlib

/-!
Verification of the messaging_app repository (server + client) against its
natural-language specification.

The embedding is shallow: each Python function of the repository that the
claims touch is translated into an executable Lean definition operating on
explicit state.  Python dicts are modelled as association lists (first
occurrence wins, matching dict semantics under the registry's uniqueness
invariant), timestamps as natural numbers, socket endpoints as numeric
connection identifiers, and byte strings as lists of naturals.
-/

namespace MessagingApp

/-! ### Generic association-list helpers (model of Python dict operations) -/

/-- Lookup of a key in an association list: `m.get(k)` on a Python dict. -/
def lookupA {α β : Type} [DecidableEq α] : List (α × β) → α → Option β
  | [], _ => none
  | (k, v) :: rest, a => if k = a then some v else lookupA rest a

/-- Deletion of a key: `del m[k]` on a Python dict (removes every binding,
which on duplicate-free association lists coincides with dict deletion). -/
def eraseA {α β : Type} [DecidableEq α] : List (α × β) → α → List (α × β)
  | [], _ => []
  | (k, v) :: rest, a => if k = a then eraseA rest a else (k, v) :: eraseA rest a

theorem lookupA_eraseA {α β : Type} [DecidableEq α] (m : List (α × β)) (a : α) :
    lookupA (eraseA m a) a = none := by
  induction m with
  | nil => rfl
  | cons kv rest ih =>
    obtain ⟨k, v⟩ := kv
    by_cases h : k = a
    · simp [eraseA, h, ih]
    · simp [eraseA, lookupA, h, ih]

theorem lookupA_append_right {α β : Type} [DecidableEq α]
    (m : List (α × β)) (a : α) (v : β) (h : lookupA m a = none) :
    lookupA (m ++ [(a, v)]) a = some v := by
  induction m with
  | nil => simp [lookupA]
  | cons kv rest ih =>
    obtain ⟨k, w⟩ := kv
    by_cases hk : k = a
    · simp [lookupA, hk] at h
    · simp [lookupA, hk] at h ⊢
      exact ih h

theorem lookupA_eq_none_iff {α β : Type} [DecidableEq α]
    (m : List (α × β)) (a : α) :
    lookupA m a = none ↔ a ∉ m.map Prod.fst := by
  induction m with
  | nil => simp [lookupA]
  | cons kv rest ih =>
    obtain ⟨k, v⟩ := kv
    by_cases hk : k = a
    · simp [lookupA, hk]
    · simp [lookupA, hk, ih]
      intro h
      exact fun hh => hk hh.symm

/-! ### Server data model (src/server/server.py)

`clients` is the dictionary `username -> {'conn', 'addr', 'last_ping'}`.
The `addr` field is never consulted by the logic and is omitted; `conn`
is a numeric endpoint identifier, `last_ping` a natural-number timestamp. -/

/-- One entry of the server's `clients` dictionary. -/
structure Session where
  conn : Nat
  lastPing : Nat
deriving DecidableEq, Repr

/-- The server's `clients` dictionary: handle to session. -/
abbrev Registry := List (String × Session)

/-- The keys of the registry (`list(clients.keys())`). -/
def keysC (r : Registry) : List String := r.map Prod.fst

/-- Destination of an outgoing record: either the current connection
(`send_json(conn, ...)`) or the endpoint of a registered client
(`send_json(clients[target]['conn'], ...)`). -/
inductive Dest
  | toSender
  | toConn (c : Nat)
deriving DecidableEq, Repr

/-- Outgoing payloads, one constructor per literal dict built in server.py. -/
inductive OutMsg
  | errorMsg (e : String)
  | messageMsg (sender text : String)
  | userList (users : List String)
  | connectOk
  | connectErr (e : Option String)
deriving DecidableEq, Repr

/-- `broadcast_user_list`: send the current key list to every client. -/
def broadcast_user_list (r : Registry) : List (Dest × OutMsg) :=
  r.map (fun p => (Dest.toConn p.2.conn, OutMsg.userList (keysC r)))

/-- `remove_client`: if the handle is present, close its endpoint and delete
it; in all cases broadcast the (new) user list afterwards.  Returns the new
registry, the list of endpoints closed, and the emitted records. -/
def remove_client (r : Registry) (u : String) :
    Registry × List Nat × List (Dest × OutMsg) :=
  match lookupA r u with
  | some s => (eraseA r u, [s.conn], broadcast_user_list (eraseA r u))
  | none => (r, [], broadcast_user_list r)

/-- The registration check-and-insert of `register_client` (the part inside
the `clients_lock` critical section). -/
def registerC (r : Registry) (u : String) (s : Session) :
    Registry × Option String :=
  if (lookupA r u).isSome then (r, some "username already taken")
  else (r ++ [(u, s)], none)

/-- Heartbeat refresh: `clients[username]['last_ping'] = time.time()` guarded
by `if username in clients`. -/
def touchC : Registry → String → Nat → Registry
  | [], _, _ => []
  | (k, v) :: rest, u, now =>
    if k = u then (k, { v with lastPing := now }) :: rest
    else (k, v) :: touchC rest u now

/-! ### The per-connection ACTIVE loop of `handle_client` -/

/-- A parsed incoming record.  `msg.get(field)` yields `none` when the field
is absent.  `fromF` models a client-supplied `from` field; the server's
dispatch never reads it.  The remaining fields carry the file-transfer
payloads; the server's dispatch never reads them either. -/
structure InMsg where
  action : Option String := none
  toU : Option String := none
  message : Option String := none
  fromF : Option String := none
  filename : Option String := none
  filesize : Option Nat := none
  filetype : Option String := none
  chunkIndex : Option Nat := none
  dataB64 : Option String := none
  isLastChunk : Option Bool := none
  reason : Option String := none
deriving DecidableEq, Repr

/-- One `readline` outcome inside the ACTIVE loop: end of stream, a line
that fails JSON parsing, or a parsed record. -/
inductive Line
  | eof
  | malformed
  | record (m : InMsg)
deriving DecidableEq, Repr

/-- Connection state of the per-connection loop after one iteration. -/
inductive ConnState
  | active
  | closed
deriving DecidableEq, Repr

/-- One iteration of the ACTIVE loop of `handle_client` (server.py lines
130-176): returns the new registry, the records written (with their
destinations, in order), and whether the loop continues. -/
def handle_client_step (clients : Registry) (username : String) (now : Nat)
    (l : Line) : Registry × List (Dest × OutMsg) × ConnState :=
  match l with
  | .eof => (clients, [], .closed)
  | .malformed => (clients, [], .active)
  | .record m =>
    if m.action = some "ping" then
      (touchC clients username now, [], .active)
    else if m.action = some "message" then
      match m.toU, (m.message).getD "" with
      | none, _ =>
        (clients, [(.toSender, .errorMsg "wrong message format")], .active)
      | some t, text =>
        if t = "" ∨ text = "" then
          (clients, [(.toSender, .errorMsg "wrong message format")], .active)
        else
          match lookupA clients t with
          | some s =>
            (clients, [(.toConn s.conn, .messageMsg username text)], .active)
          | none =>
            (clients,
             [(.toSender, .errorMsg ("user " ++ t ++ " not found"))], .active)
    else if m.action = some "disconnect" then
      (clients, [], .closed)
    else
      (clients, [(.toSender, .errorMsg "unknown action")], .active)

/-! ### Registration handshake (server.py `register_client` + steps 1-2 of
`handle_client`) -/

/-- The parsed shape of the first line read from a new connection. -/
structure ConnReq where
  action : Option String := none
  username : Option String := none
deriving DecidableEq, Repr

/-- Outcome of reading the registration line. -/
inductive RegLine
  | eofL
  | badJsonL
  | recordL (m : ConnReq)
deriving DecidableEq, Repr

/-- `register_client`: parse the first line, validate it, and perform the
check-and-insert against the registry.  Returns the new registry and the
`(username, error)` pair the Python function returns. -/
def register_client (clients : Registry) (conn now : Nat) (l : RegLine) :
    Registry × Option String × Option String :=
  match l with
  | .eofL => (clients, none, some "no data received")
  | .badJsonL => (clients, none, some "malformed JSON")
  | .recordL m =>
    if m.action ≠ some "connect" ∨ m.username = none then
      (clients, none, some "invalid connect protocol")
    else
      match m.username with
      | none => (clients, none, some "invalid connect protocol")
      | some u =>
        match registerC clients u ⟨conn, now⟩ with
        | (r, some e) => (r, none, some e)
        | (r, none) => (r, some u, none)

/-- Steps 1-2 of `handle_client`: run registration, then either reply with an
error-status connect response and stop (`if not username`, which in Python is
true both for `None` and for the empty string), or reply ok, broadcast the
roster and proceed to the ACTIVE loop.  The final component tells whether the
connection proceeds. -/
def handshake (clients : Registry) (conn now : Nat) (l : RegLine) :
    Registry × List (Dest × OutMsg) × Bool :=
  match register_client clients conn now l with
  | (r, uOpt, err) =>
    match uOpt with
    | none => (r, [(.toSender, .connectErr err)], false)
    | some u =>
      if u = "" then (r, [(.toSender, .connectErr err)], false)
      else (r, (.toSender, .connectOk) :: broadcast_user_list r, true)

/-! ### Liveness monitor (server.py `inactive_checker`, one sweep) -/

/-- The body of one sweep: iterate over the client entries in order, evicting
(closing the endpoint and deleting the entry) every session whose heartbeat
is more than 120 time-units old.  Returns the remaining registry, the evicted
handles (in iteration order) and the closed endpoints. -/
def sweepAux (now : Nat) : Registry → Registry × List String × List Nat
  | [] => ([], [], [])
  | (u, s) :: rest =>
    let r := sweepAux now rest
    if now - s.lastPing > 120 then (r.1, u :: r.2.1, s.conn :: r.2.2)
    else ((u, s) :: r.1, r.2.1, r.2.2)

/-- One full sweep of `inactive_checker`: the loop body plus the final
`if removed: broadcast_user_list()`.  The last component counts the
broadcast invocations issued by this sweep (0 or 1). -/
def inactive_checker_sweep (now : Nat) (clients : Registry) :
    Registry × List String × List Nat × Nat :=
  match sweepAux now clients with
  | (keep, removed, closed) =>
    (keep, removed, closed, if removed.isEmpty then 0 else 1)

/-! ### Client connect handshake (src/client/chat_logic.py, `ChatClient.connect`)

The environment abstracts the I/O outcomes the code branches on: whether the
TCP connection could be opened, whether sending the connect record succeeded,
and what the synchronous reply read produced.  The reported failure reasons
are modelled by the literal message prefixes of the source (the dynamic
exception text appended by the f-strings is elided). -/

/-- Outcome of the synchronous `readline` for the connect response. -/
inductive ReadResult
  | noLine
  | badJson
  | parsed (action : Option String) (status : Option String)
      (error : Option String)
deriving DecidableEq, Repr

/-- The I/O outcomes `ChatClient.connect` branches on. -/
structure ConnectEnv where
  sockOk : Bool
  sendOk : Bool
  reply : ReadResult
deriving DecidableEq, Repr

/-- Observable result of one `ChatClient.connect` call: the
`on_connect_result` invocation, the `running` flag, whether each background
thread was started, and whether `self.sock.close()` was called. -/
structure ConnectOut where
  result : Option (Bool × Option String)
  running : Bool
  receiverStarted : Bool
  pingerStarted : Bool
  sockClosed : Bool
deriving DecidableEq, Repr

/-- `ChatClient.connect` (chat_logic.py lines 46-100). -/
def ChatClient_connect (env : ConnectEnv) : ConnectOut :=
  if env.sockOk = false then
    { result := some (false, some "Cannot connect to server"), running := false,
      receiverStarted := false, pingerStarted := false, sockClosed := false }
  else if env.sendOk = false then
    { result := some (false, some "Send error"), running := false,
      receiverStarted := false, pingerStarted := false, sockClosed := true }
  else
    match env.reply with
    | .noLine =>
      { result := some (false, some "Invalid response"), running := false,
        receiverStarted := false, pingerStarted := false, sockClosed := true }
    | .badJson =>
      { result := some (false, some "Invalid response"), running := false,
        receiverStarted := false, pingerStarted := false, sockClosed := true }
    | .parsed a st e =>
      if a = some "connect" ∧ st = some "ok" then
        { result := some (true, none), running := true,
          receiverStarted := true, pingerStarted := true, sockClosed := false }
      else
        { result := some (false, some (e.getD "unknown error")),
          running := false, receiverStarted := false, pingerStarted := false,
          sockClosed := true }

/-! ### Console UI file transfer (src/client/chat_console_ui.py)

Bytes are naturals; the local file system is an association list from save
path to the bytes written so far.  `_send_file_chunks` and `_on_file_data`
exchange raw bytes (the base64 leg inside chat_logic is a bijective codec
below this layer and is elided, as the spec treats the wire encoding). -/

/-- Append `d` to the file at path `p`, creating it when absent
(`open(p, "ab"); f.write(d)`). -/
def appendFs : List (String × List Nat) → String → List Nat →
    List (String × List Nat)
  | [], p, d => [(p, d)]
  | (k, v) :: rest, p, d =>
    if k = p then (k, v ++ d) :: rest else (k, v) :: appendFs rest p d

/-- State of the console UI relevant to chunk handling: the
`_receiving_files` dictionary `(sender, filename) -> save_path` and the local
file system. -/
structure UIState where
  receivingFiles : List ((String × String) × String)
  fs : List (String × List Nat)
deriving DecidableEq, Repr

/-- `_on_file_data` (chat_console_ui.py lines 180-189): drop the chunk when
the `(sender, filename)` pair has no pending save path (a falsy lookup, i.e.
absent or empty), otherwise append the bytes to the save path and delete the
pending entry exactly when `is_last_chunk` is set. -/
def on_file_data (st : UIState) (sender filename : String) (d : List Nat)
    (isLast : Bool) : UIState :=
  match lookupA st.receivingFiles (sender, filename) with
  | none => st
  | some p =>
    if p = "" then st
    else
      { receivingFiles :=
          if isLast then eraseA st.receivingFiles (sender, filename)
          else st.receivingFiles,
        fs := appendFs st.fs p d }

/-- The records `_send_file_chunks` emits for one transfer. -/
inductive FTRecord
  | dataRec (idx : Nat) (bytes : List Nat) (isLast : Bool)
  | completeRec
deriving DecidableEq, Repr

/-- The chunk-emitting loop of `_send_file_chunks`: read `c` bytes at a time;
stop on an empty read; `is_last` holds exactly when the file position after
the read equals the file size, i.e. when nothing remains. -/
def sendChunksFrom (c idx : Nat) (l : List Nat) : List FTRecord :=
  if l.take c = [] then []
  else
    FTRecord.dataRec idx (l.take c) (l.drop c).isEmpty ::
      sendChunksFrom c (idx + 1) (l.drop c)
termination_by l.length
decreasing_by
  simp_wf
  have hc : c ≠ 0 := by
    intro h
    subst h
    simp [List.take] at *
  have hl : l ≠ [] := by
    intro h
    subst h
    simp at *
  exact ⟨List.length_pos.mpr hl, Nat.pos_of_ne_zero hc⟩

/-- `_send_file_chunks` (chat_console_ui.py lines 204-217): the data chunks
with indices 0,1,2,... followed by one `file_transfer_complete` record. -/
def send_file_chunks (c : Nat) (file : List Nat) : List FTRecord :=
  sendChunksFrom c 0 file ++ [FTRecord.completeRec]

/-- Receiver-side processing of one transfer record: data chunks go through
`_on_file_data`; `_on_file_complete` only prints and leaves the state
unchanged. -/
def processRecord (sender filename : String) (st : UIState) :
    FTRecord → UIState
  | .dataRec _ b isLast => on_file_data st sender filename b isLast
  | .completeRec => st

/-- Receiver-side processing of a stream of transfer records, in arrival
order. -/
def processAll (sender filename : String) (st : UIState)
    (rs : List FTRecord) : UIState :=
  rs.foldl (processRecord sender filename) st

/-! ### Registry operation sequences (for the uniqueness invariant) -/

/-- One registry mutation: a registration attempt or a removal. -/
inductive RegOp
  | doReg (u : String) (conn now : Nat)
  | doRem (u : String)
deriving DecidableEq, Repr

/-- Effect of one operation on the registry. -/
def applyOp (r : Registry) : RegOp → Registry
  | .doReg u conn now => (registerC r u ⟨conn, now⟩).1
  | .doRem u => (remove_client r u).1

/-- Effect of a sequence of operations on the registry. -/
def applyOps (r : Registry) (ops : List RegOp) : Registry :=
  ops.foldl applyOp r

theorem eraseA_sublist {α β : Type} [DecidableEq α] (m : List (α × β))
    (a : α) : List.Sublist (eraseA m a) m := by
  induction m with
  | nil => simp [eraseA]
  | cons kv rest ih =>
    obtain ⟨k, v⟩ := kv
    by_cases h : k = a
    · simp only [eraseA, if_pos h]
      exact ih.cons (k, v)
    · simp only [eraseA, if_neg h]
      exact ih.cons₂ (k, v)

theorem applyOp_nodup (r : Registry) (op : RegOp)
    (h : (keysC r).Nodup) : (keysC (applyOp r op)).Nodup := by
  cases op with
  | doReg u conn now =>
    simp only [applyOp, registerC]
    by_cases hp : (lookupA r u).isSome
    · simp [hp, h]
    · rw [if_neg hp]
      have hnone : lookupA r u = none := by
        cases hl : lookupA r u
        · rfl
        · simp [hl] at hp
      have hu : u ∉ keysC r := (lookupA_eq_none_iff r u).mp hnone
      simp only [keysC, List.map_append]
      rw [List.nodup_append]
      refine ⟨h, by simp, ?_⟩
      intro x hx hx2
      simp at hx2
      subst hx2
      exact hu hx
  | doRem u =>
    simp only [applyOp, remove_client]
    cases hl : lookupA r u with
    | some s =>
      simp only []
      exact ((eraseA_sublist r u).map Prod.fst).nodup h
    | none => exact h

theorem applyOps_nodup (ops : List RegOp) (r : Registry)
    (h : (keysC r).Nodup) : (keysC (applyOps r ops)).Nodup := by
  induction ops generalizing r with
  | nil => exact h
  | cons op rest ih => exact ih (applyOp r op) (applyOp_nodup r op h)

/-- In a registry with duplicate-free keys, a handle determines its
session. -/
theorem session_unique (r : Registry) (u : String) (s t : Session)
    (h : (keysC r).Nodup) (hs : (u, s) ∈ r) (ht : (u, t) ∈ r) : s = t := by
  induction r with
  | nil => cases hs
  | cons kv rest ih =>
    obtain ⟨k, v⟩ := kv
    simp only [keysC, List.map_cons, List.nodup_cons] at h
    rcases List.mem_cons.mp hs with h1 | h1 <;>
      rcases List.mem_cons.mp ht with h2 | h2
    · rw [Prod.mk.injEq] at h1 h2
      exact h1.2.trans h2.2.symm
    · exfalso
      apply h.1
      rw [Prod.mk.injEq] at h1
      rw [← h1.1]
      exact List.mem_map_of_mem Prod.fst h2
    · exfalso
      apply h.1
      rw [Prod.mk.injEq] at h2
      rw [← h2.1]
      exact List.mem_map_of_mem Prod.fst h1
    · exact ih h.2 h1 h2

/-! ### Liveness sweep characterization -/

/-- Predicate used by the sweep: the session's heartbeat is stale. -/
def staleB (now : Nat) (p : String × Session) : Bool :=
  decide (now - p.2.lastPing > 120)

theorem sweepAux_spec (now : Nat) (c : Registry) :
    sweepAux now c =
      (c.filter (fun p => !staleB now p),
       (c.filter (staleB now)).map Prod.fst,
       (c.filter (staleB now)).map (fun p => p.2.conn)) := by
  induction c with
  | nil => rfl
  | cons kv rest ih =>
    obtain ⟨u, s⟩ := kv
    by_cases h : now - s.lastPing > 120
    · simp [sweepAux, ih, h, staleB, List.filter_cons]
    · simp [sweepAux, ih, h, staleB, List.filter_cons]

/-! ### Chunk reassembly lemmas -/

theorem sendChunksFrom_eq (c idx : Nat) (l : List Nat) :
    sendChunksFrom c idx l =
      if l.take c = [] then []
      else
        FTRecord.dataRec idx (l.take c) (l.drop c).isEmpty ::
          sendChunksFrom c (idx + 1) (l.drop c) := by
  rw [sendChunksFrom]

theorem appendFs_appendFs (fs : List (String × List Nat)) (p : String)
    (a b : List Nat) :
    appendFs (appendFs fs p a) p b = appendFs fs p (a ++ b) := by
  induction fs with
  | nil => simp [appendFs]
  | cons kv rest ih =>
    obtain ⟨k, v⟩ := kv
    by_cases h : k = p
    · simp [appendFs, h]
    · simp [appendFs, h, ih]

theorem lookupA_appendFs_self (fs : List (String × List Nat)) (p : String)
    (d : List Nat) (h : lookupA fs p = none) :
    lookupA (appendFs fs p d) p = some d := by
  induction fs with
  | nil => simp [appendFs, lookupA]
  | cons kv rest ih =>
    obtain ⟨k, v⟩ := kv
    by_cases hk : k = p
    · simp [lookupA, hk] at h
    · simp only [lookupA, hk, if_neg] at h
      simp [appendFs, lookupA, hk, ih h]

/-- Folding the receiver over the chunk stream of a non-empty file appends
the whole file to the pending save path and deletes the pending entry (the
final chunk carries `is_last_chunk`). -/
theorem processChunks_spec (s f p : String) (hp : p ≠ "") :
    ∀ n l, l.length ≤ n → l ≠ [] → ∀ c, 0 < c → ∀ idx (st : UIState),
    lookupA st.receivingFiles (s, f) = some p →
    List.foldl (processRecord s f) st (sendChunksFrom c idx l) =
      ⟨eraseA st.receivingFiles (s, f), appendFs st.fs p l⟩ := by
  intro n
  induction n with
  | zero =>
    intro l hl hne
    rw [Nat.le_zero, List.length_eq_zero] at hl
    exact absurd hl hne
  | succ n ih =>
    intro l hl hne c hc idx st hacc
    rw [sendChunksFrom_eq]
    have htake : ¬ l.take c = [] := by
      rw [List.take_eq_nil_iff]
      push_neg
      exact ⟨Nat.pos_iff_ne_zero.mp hc, hne⟩
    rw [if_neg htake]
    rw [List.foldl_cons]
    by_cases hdrop : l.drop c = []
    · have htl : l.take c = l := by
        conv_rhs => rw [← List.take_append_drop c l]
        rw [hdrop, List.append_nil]
      have hrest : sendChunksFrom c (idx + 1) (l.drop c) = [] := by
        rw [hdrop, sendChunksFrom_eq]
        simp
      rw [hrest, List.foldl_nil]
      simp [processRecord, on_file_data, hacc, hp, hdrop, htl]
    · have hstep :
          processRecord s f st
              (FTRecord.dataRec idx (l.take c) (l.drop c).isEmpty) =
            ⟨st.receivingFiles, appendFs st.fs p (l.take c)⟩ := by
        have : (l.drop c).isEmpty = false := by
          simp [List.isEmpty_iff, hdrop]
        simp [processRecord, on_file_data, hacc, hp, this]
      rw [hstep]
      have hlen : (l.drop c).length ≤ n := by
        rw [List.length_drop]
        have h1 : 1 ≤ l.length := List.length_pos.mpr hne
        omega
      rw [ih (l.drop c) hlen hdrop c hc (idx + 1)
        ⟨st.receivingFiles, appendFs st.fs p (l.take c)⟩ hacc]
      simp only [appendFs_appendFs, List.take_append_drop]

/-- If a handle is looked up right after `remove_client`, it is absent. -/
theorem lookupA_remove_client (r : Registry) (u : String) :
    lookupA (remove_client r u).1 u = none := by
  cases hl : lookupA r u with
  | some s => simp [remove_client, hl, lookupA_eraseA]
  | none => simp [remove_client, hl]

/-! ## Claims -/

/-- C1: the claim states that in the ACTIVE state the server relays each of
the five file-transfer actions like a text message (forward to the registered
recipient with `from` overwritten, error to the sender otherwise).  The code
does not: its dispatch recognizes only ping/message/disconnect, so every
file-transfer record sent to a registered recipient is answered with an
"unknown action" error to the sender and nothing is forwarded.  This theorem
evaluates the ACTIVE-loop step at the five failing inputs (sender "alice",
recipient "bob" registered). -/
theorem c1_file_transfer_not_relayed :
    (handle_client_step [("alice", ⟨1, 0⟩), ("bob", ⟨2, 0⟩)] "alice" 5
        (.record { action := some "file_transfer_request", fromF := some "",
                   toU := some "bob", filename := some "a.txt",
                   filesize := some 25, filetype := some "txt" }) =
      ([("alice", ⟨1, 0⟩), ("bob", ⟨2, 0⟩)],
       [(.toSender, .errorMsg "unknown action")], .active)) ∧
    (handle_client_step [("alice", ⟨1, 0⟩), ("bob", ⟨2, 0⟩)] "alice" 5
        (.record { action := some "file_transfer_accept", fromF := some "",
                   toU := some "bob", filename := some "a.txt" }) =
      ([("alice", ⟨1, 0⟩), ("bob", ⟨2, 0⟩)],
       [(.toSender, .errorMsg "unknown action")], .active)) ∧
    (handle_client_step [("alice", ⟨1, 0⟩), ("bob", ⟨2, 0⟩)] "alice" 5
        (.record { action := some "file_transfer_cancel", fromF := some "",
                   toU := some "bob", filename := some "a.txt",
                   reason := some "stop" }) =
      ([("alice", ⟨1, 0⟩), ("bob", ⟨2, 0⟩)],
       [(.toSender, .errorMsg "unknown action")], .active)) ∧
    (handle_client_step [("alice", ⟨1, 0⟩), ("bob", ⟨2, 0⟩)] "alice" 5
        (.record { action := some "file_transfer_data", fromF := some "",
                   toU := some "bob", filename := some "a.txt",
                   chunkIndex := some 0, dataB64 := some "aGVsbG8=",
                   isLastChunk := some true }) =
      ([("alice", ⟨1, 0⟩), ("bob", ⟨2, 0⟩)],
       [(.toSender, .errorMsg "unknown action")], .active)) ∧
    (handle_client_step [("alice", ⟨1, 0⟩), ("bob", ⟨2, 0⟩)] "alice" 5
        (.record { action := some "file_transfer_complete", fromF := some "",
                   toU := some "bob", filename := some "a.txt" }) =
      ([("alice", ⟨1, 0⟩), ("bob", ⟨2, 0⟩)],
       [(.toSender, .errorMsg "unknown action")], .active)) := by
  exact ⟨rfl, rfl, rfl, rfl, rfl⟩

/-- C2: a `message` record on an ACTIVE connection carrying a `to` handle
and a non-empty text is delivered exactly once to the registered recipient's
endpoint with `from` stamped as the authenticated sender (the client-supplied
`from` field of the record is arbitrary and unused); with the recipient not
registered, the sender gets a "user ... not found" error and nothing is
delivered. -/
theorem c2_message_routing
    (cl1 : Registry) (u1 : String) (now1 : Nat) (m1 : InMsg)
    (t1 text1 : String) (s1 : Session)
    (cl2 : Registry) (u2 : String) (now2 : Nat) (m2 : InMsg)
    (t2 text2 : String)
    (h1a : m1.action = some "message") (h1to : m1.toU = some t1)
    (h1m : m1.message = some text1) (h1t : t1 ≠ "") (h1x : text1 ≠ "")
    (h1on : lookupA cl1 t1 = some s1)
    (h2a : m2.action = some "message") (h2to : m2.toU = some t2)
    (h2m : m2.message = some text2) (h2t : t2 ≠ "") (h2x : text2 ≠ "")
    (h2off : lookupA cl2 t2 = none) :
    handle_client_step cl1 u1 now1 (.record m1) =
      (cl1, [(.toConn s1.conn, .messageMsg u1 text1)], .active) ∧
    handle_client_step cl2 u2 now2 (.record m2) =
      (cl2, [(.toSender, .errorMsg ("user " ++ t2 ++ " not found"))],
       .active) := by
  constructor
  · simp [handle_client_step, h1a, h1to, h1m, h1t, h1x, h1on]
  · simp [handle_client_step, h2a, h2to, h2m, h2t, h2x, h2off]

/-- Witness for C2 at concrete inputs: "alice" sends to registered "bob"
(with a forged `from` field) and to unregistered "carol". -/
theorem c2_message_routing_witness :
    ((⟨some "message", some "bob", some "hi", some "mallory", none, none,
        none, none, none, none, none⟩ : InMsg).action = some "message") ∧
    lookupA [("bob", (⟨2, 0⟩ : Session))] "bob" = some ⟨2, 0⟩ ∧
    lookupA ([] : Registry) "carol" = none ∧
    (handle_client_step [("bob", ⟨2, 0⟩)] "alice" 9
        (.record ⟨some "message", some "bob", some "hi", some "mallory",
          none, none, none, none, none, none, none⟩) =
      ([("bob", ⟨2, 0⟩)], [(.toConn 2, .messageMsg "alice" "hi")],
       .active) ∧
    handle_client_step [] "alice" 9
        (.record ⟨some "message", some "carol", some "hi", some "mallory",
          none, none, none, none, none, none, none⟩) =
      ([], [(.toSender, .errorMsg ("user " ++ "carol" ++ " not found"))],
       .active)) :=
  ⟨rfl, rfl, rfl,
    c2_message_routing [("bob", ⟨2, 0⟩)] "alice" 9
      ⟨some "message", some "bob", some "hi", some "mallory", none, none,
        none, none, none, none, none⟩ "bob" "hi" ⟨2, 0⟩
      [] "alice" 9
      ⟨some "message", some "carol", some "hi", some "mallory", none, none,
        none, none, none, none, none⟩ "carol" "hi"
      rfl rfl rfl (by decide) (by decide) rfl
      rfl rfl rfl (by decide) (by decide) rfl⟩

/-- C3: `register_client`'s check-and-insert fails with "username already
taken" and leaves the registry unchanged when the handle is present, inserts
exactly one session when it is absent, and any sequence of register/remove
operations preserves duplicate-freeness of the handles. -/
theorem c3_register_check_and_insert
    (r1 : Registry) (u1 : String) (s1 : Session)
    (r2 : Registry) (u2 : String) (s2 : Session)
    (r3 : Registry) (ops : List RegOp)
    (h1 : (lookupA r1 u1).isSome = true)
    (h2 : lookupA r2 u2 = none)
    (h3 : (keysC r3).Nodup) :
    registerC r1 u1 s1 = (r1, some "username already taken") ∧
    registerC r2 u2 s2 = (r2 ++ [(u2, s2)], none) ∧
    (keysC (registerC r2 u2 s2).1).count u2 = 1 ∧
    (keysC (applyOps r3 ops)).Nodup := by
  refine ⟨by simp [registerC, h1], by simp [registerC, h2], ?_,
    applyOps_nodup ops r3 h3⟩
  have hno : u2 ∉ List.map Prod.fst r2 := (lookupA_eq_none_iff r2 u2).mp h2
  simp [registerC, h2, keysC, List.count_append]
  exact List.count_eq_zero.mpr hno

/-- Witness for C3 at concrete inputs: re-registering "a" fails, registering
fresh "b" inserts it, and a concrete operation sequence keeps keys
duplicate-free. -/
theorem c3_register_check_and_insert_witness :
    (lookupA [("a", (⟨0, 0⟩ : Session))] "a").isSome = true ∧
    lookupA ([] : Registry) "b" = none ∧
    (keysC ([] : Registry)).Nodup ∧
    (registerC [("a", ⟨0, 0⟩)] "a" ⟨1, 1⟩ =
      ([("a", ⟨0, 0⟩)], some "username already taken") ∧
    registerC [] "b" ⟨2, 2⟩ = ([("b", ⟨2, 2⟩)], none) ∧
    (keysC (registerC [] "b" (⟨2, 2⟩ : Session)).1).count "b" = 1 ∧
    (keysC (applyOps []
      [.doReg "a" 0 0, .doReg "a" 1 1, .doRem "a", .doReg "b" 2 2])).Nodup) :=
  ⟨by decide, rfl, by decide,
    by
      have h := c3_register_check_and_insert [("a", ⟨0, 0⟩)] "a" ⟨1, 1⟩
        [] "b" ⟨2, 2⟩ []
        [.doReg "a" 0 0, .doReg "a" 1 1, .doRem "a", .doReg "b" 2 2]
        (by decide) rfl (by decide)
      simpa using h⟩

/-- C4: receiver chunk handling composed with sender chunking is the
identity on file contents: a chunk for an unaccepted (sender, filename) pair
leaves the receiver state untouched, and for an accepted pair with a fresh
save path, the sender's chunk stream of a non-empty file (fixed chunk size,
indices from 0, `is_last_chunk` on the final chunk) leaves the save path
holding exactly the original bytes and removes the pending entry. -/
theorem c4_chunk_roundtrip
    (c : Nat) (file : List Nat) (s f p : String) (st : UIState)
    (s2 f2 : String) (st2 : UIState) (b : List Nat) (last : Bool)
    (hc : 0 < c) (hfile : file ≠ [])
    (hacc : lookupA st.receivingFiles (s, f) = some p) (hp : p ≠ "")
    (hfs : lookupA st.fs p = none)
    (hdrop : lookupA st2.receivingFiles (s2, f2) = none) :
    on_file_data st2 s2 f2 b last = st2 ∧
    lookupA (processAll s f st (send_file_chunks c file)).fs p =
      some file ∧
    lookupA (processAll s f st
      (send_file_chunks c file)).receivingFiles (s, f) = none := by
  refine ⟨by simp [on_file_data, hdrop], ?_, ?_⟩ <;>
  · rw [processAll, send_file_chunks, List.foldl_append,
      processChunks_spec s f p hp file.length file le_rfl hfile c hc 0 st
        hacc]
    simp [processRecord, lookupA_appendFs_self st.fs p file hfs,
      lookupA_eraseA]

/-- Witness for C4 at concrete inputs: a 5-byte file sent in chunks of 2 to
an accepting receiver, plus a stray chunk for an unaccepted pair. -/
theorem c4_chunk_roundtrip_witness :
    0 < 2 ∧ ([9, 8, 7, 6, 5] : List Nat) ≠ [] ∧
    lookupA [(("alice", "a.txt"), "save/a.txt")] ("alice", "a.txt") =
      some "save/a.txt" ∧
    ("save/a.txt" : String) ≠ "" ∧
    lookupA ([] : List (String × List Nat)) "save/a.txt" = none ∧
    lookupA ([] : List ((String × String) × String)) ("eve", "x.bin") =
      none ∧
    (on_file_data ⟨[], []⟩ "eve" "x.bin" [1, 2] true = ⟨[], []⟩ ∧
    lookupA (processAll "alice" "a.txt"
        ⟨[(("alice", "a.txt"), "save/a.txt")], []⟩
        (send_file_chunks 2 [9, 8, 7, 6, 5])).fs "save/a.txt" =
      some [9, 8, 7, 6, 5] ∧
    lookupA (processAll "alice" "a.txt"
        ⟨[(("alice", "a.txt"), "save/a.txt")], []⟩
        (send_file_chunks 2 [9, 8, 7, 6, 5])).receivingFiles
      ("alice", "a.txt") = none) :=
  ⟨by decide, by decide, rfl, by decide, rfl, rfl,
    c4_chunk_roundtrip 2 [9, 8, 7, 6, 5] "alice" "a.txt" "save/a.txt"
      ⟨[(("alice", "a.txt"), "save/a.txt")], []⟩ "eve" "x.bin" ⟨[], []⟩
      [1, 2] true (by decide) (by decide) rfl (by decide) rfl rfl⟩

/-- C5 counterexample: the claim states that a malformed record is answered
with an error record.  At a concrete malformed line on an ACTIVE connection
the server writes nothing at all (the loop skips the line), so no error
record is sent to the sender. -/
theorem c5_counterexample :
    handle_client_step [("alice", ⟨1, 0⟩)] "alice" 0 .malformed =
      ([("alice", ⟨1, 0⟩)], [], .active) := rfl

/-- C5 amended: an unrecognized action is answered with an "unknown action"
error record and the connection remains ACTIVE; a malformed record is
silently skipped (no reply at all) and the connection also remains
ACTIVE. -/
theorem c5_protocol_errors_recoverable
    (cl1 : Registry) (u1 : String) (now1 : Nat) (m1 : InMsg)
    (cl2 : Registry) (u2 : String) (now2 : Nat)
    (h1 : m1.action ≠ some "ping") (h2 : m1.action ≠ some "message")
    (h3 : m1.action ≠ some "disconnect") :
    handle_client_step cl1 u1 now1 (.record m1) =
      (cl1, [(.toSender, .errorMsg "unknown action")], .active) ∧
    handle_client_step cl2 u2 now2 .malformed = (cl2, [], .active) := by
  exact ⟨by simp [handle_client_step, h1, h2, h3], rfl⟩

/-- Witness for C5 at a concrete unrecognized action. -/
theorem c5_protocol_errors_recoverable_witness :
    ((⟨some "frobnicate", none, none, none, none, none, none, none, none,
        none, none⟩ : InMsg).action ≠ some "ping") ∧
    (handle_client_step [("alice", ⟨1, 0⟩)] "alice" 3
        (.record ⟨some "frobnicate", none, none, none, none, none, none,
          none, none, none, none⟩) =
      ([("alice", ⟨1, 0⟩)], [(.toSender, .errorMsg "unknown action")],
       .active) ∧
    handle_client_step [("bob", ⟨2, 0⟩)] "bob" 3 .malformed =
      ([("bob", ⟨2, 0⟩)], [], .active)) :=
  ⟨by decide,
    c5_protocol_errors_recoverable [("alice", ⟨1, 0⟩)] "alice" 3
      ⟨some "frobnicate", none, none, none, none, none, none, none, none,
        none, none⟩
      [("bob", ⟨2, 0⟩)] "bob" 3 (by decide) (by decide) (by decide)⟩

/-- C6: the claim states that a connect record with an empty username is
rejected with an error-status connect-response and that no session is
created.  The code does send the error-status response (with a null error
text), but `register_client` has already inserted a session keyed by the
empty string, which the failure path never removes: evaluating the handshake
on an empty registry with username `""` yields a registry containing the
empty handle. -/
theorem c6_empty_username_leaks_session :
    handshake [] 7 0 (.recordL ⟨some "connect", some ""⟩) =
      ([("", ⟨7, 0⟩)], [(.toSender, .connectErr none)], false) := rfl

/-- C7: `remove_client` leaves the handle absent, calling it again removes
and closes nothing further, it deletes and closes the endpoint exactly when
the handle is present and is a registry no-op when absent; the ACTIVE loop
reaches the CLOSED state on an explicit disconnect record and on end of
stream, and a liveness sweep removes a stale handle from the registry. -/
theorem c7_cleanup_idempotent
    (r1 : Registry) (u1 : String)
    (r2 : Registry) (u2 : String) (s2 : Session)
    (r3 : Registry) (u3 : String)
    (cl4 : Registry) (u4 : String) (now4 : Nat) (m4 : InMsg)
    (cl5 : Registry) (u5 : String) (now5 : Nat)
    (cl6 : Registry) (u6 : String) (s6 : Session) (now6 : Nat)
    (h2 : lookupA r2 u2 = some s2)
    (h3 : lookupA r3 u3 = none)
    (h4 : m4.action = some "disconnect")
    (h6a : (keysC cl6).Nodup) (h6b : (u6, s6) ∈ cl6)
    (h6c : now6 - s6.lastPing > 120) :
    lookupA (remove_client r1 u1).1 u1 = none ∧
    remove_client (remove_client r1 u1).1 u1 =
      ((remove_client r1 u1).1, [],
       broadcast_user_list (remove_client r1 u1).1) ∧
    remove_client r2 u2 =
      (eraseA r2 u2, [s2.conn], broadcast_user_list (eraseA r2 u2)) ∧
    remove_client r3 u3 = (r3, [], broadcast_user_list r3) ∧
    (handle_client_step cl4 u4 now4 (.record m4)).2.2 = .closed ∧
    (handle_client_step cl5 u5 now5 .eof).2.2 = .closed ∧
    u6 ∉ keysC (inactive_checker_sweep now6 cl6).1 := by
  refine ⟨lookupA_remove_client r1 u1, ?_, by simp [remove_client, h2],
    by simp [remove_client, h3], by simp [handle_client_step, h4], rfl, ?_⟩
  · have hb := lookupA_remove_client r1 u1
    generalize hG : (remove_client r1 u1).1 = X at hb ⊢
    simp [remove_client, hb]
  · intro hmem
    simp only [inactive_checker_sweep, sweepAux_spec, keysC,
      List.mem_map] at hmem
    obtain ⟨⟨k, s7⟩, hmem2, hk⟩ := hmem
    have hk2 : k = u6 := hk
    subst hk2
    rw [List.mem_filter] at hmem2
    have : s7 = s6 := session_unique cl6 k s7 s6 h6a hmem2.1 h6b
    subst this
    have := hmem2.2
    simp [staleB, h6c] at this

/-- Witness for C7 at concrete inputs. -/
theorem c7_cleanup_idempotent_witness :
    lookupA [("y", (⟨2, 5⟩ : Session))] "y" = some ⟨2, 5⟩ ∧
    lookupA ([] : Registry) "z" = none ∧
    ((⟨some "disconnect", none, none, none, none, none, none, none, none,
        none, none⟩ : InMsg).action = some "disconnect") ∧
    (keysC [("w", (⟨3, 0⟩ : Session))]).Nodup ∧
    ("w", (⟨3, 0⟩ : Session)) ∈ [("w", (⟨3, 0⟩ : Session))] ∧
    200 - ((⟨3, 0⟩ : Session)).lastPing > 120 ∧
    (lookupA (remove_client [("x", ⟨1, 5⟩)] "x").1 "x" = none ∧
    remove_client (remove_client [("x", ⟨1, 5⟩)] "x").1 "x" =
      ((remove_client [("x", ⟨1, 5⟩)] "x").1, [],
       broadcast_user_list (remove_client [("x", ⟨1, 5⟩)] "x").1) ∧
    remove_client [("y", ⟨2, 5⟩)] "y" =
      (eraseA [("y", ⟨2, 5⟩)] "y", [2],
       broadcast_user_list (eraseA [("y", ⟨2, 5⟩)] "y")) ∧
    remove_client [] "z" = ([], [], broadcast_user_list []) ∧
    (handle_client_step [("q", ⟨4, 0⟩)] "q" 7
        (.record ⟨some "disconnect", none, none, none, none, none, none,
          none, none, none, none⟩)).2.2 = .closed ∧
    (handle_client_step [("q", ⟨4, 0⟩)] "q" 7 .eof).2.2 = .closed ∧
    "w" ∉ keysC (inactive_checker_sweep 200 [("w", ⟨3, 0⟩)]).1) :=
  ⟨rfl, rfl, rfl, by decide, by decide, by decide,
    c7_cleanup_idempotent [("x", ⟨1, 5⟩)] "x" [("y", ⟨2, 5⟩)] "y" ⟨2, 5⟩
      [] "z" [("q", ⟨4, 0⟩)] "q" 7
      ⟨some "disconnect", none, none, none, none, none, none, none, none,
        none, none⟩
      [("q", ⟨4, 0⟩)] "q" 7 [("w", ⟨3, 0⟩)] "w" ⟨3, 0⟩ 200
      rfl rfl rfl (by decide) (by decide) (by decide)⟩

/-- C8: one liveness sweep evicts exactly the sessions whose last heartbeat
is more than 120 time-units old, closing exactly their endpoints; it issues
one roster broadcast when at least one session was evicted and none
otherwise; and a session whose heartbeat is less than 60 time-units old
(refreshed more often than timeout/2) survives the sweep. -/
theorem c8_liveness_sweep
    (now : Nat) (c : Registry)
    (now2 : Nat) (c2 : Registry) (u2 : String) (s2 : Session)
    (hmem : (u2, s2) ∈ c2) (hfresh : now2 - s2.lastPing < 60) :
    (inactive_checker_sweep now c).1 =
      c.filter (fun p => !staleB now p) ∧
    (inactive_checker_sweep now c).2.1 =
      (c.filter (staleB now)).map Prod.fst ∧
    (inactive_checker_sweep now c).2.2.1 =
      (c.filter (staleB now)).map (fun p => p.2.conn) ∧
    ((inactive_checker_sweep now c).2.2.2 = 1 ↔
      ∃ p ∈ c, now - p.2.lastPing > 120) ∧
    ((inactive_checker_sweep now c).2.2.2 = 0 ↔
      ∀ p ∈ c, now - p.2.lastPing ≤ 120) ∧
    (u2, s2) ∈ (inactive_checker_sweep now2 c2).1 := by
  have hcount : (inactive_checker_sweep now c).2.2.2 =
      if c.filter (staleB now) = [] then 0 else 1 := by
    simp only [inactive_checker_sweep, sweepAux_spec]
    by_cases hE : c.filter (staleB now) = [] <;>
      simp [hE, List.isEmpty_iff]
  refine ⟨by simp [inactive_checker_sweep, sweepAux_spec],
    by simp [inactive_checker_sweep, sweepAux_spec],
    by simp [inactive_checker_sweep, sweepAux_spec], ?_, ?_, ?_⟩
  · rw [hcount]
    by_cases hE : c.filter (staleB now) = []
    · rw [if_pos hE]
      rw [List.filter_eq_nil_iff] at hE
      constructor
      · intro h
        exact absurd h (by decide)
      · rintro ⟨p, hp, hgt⟩
        exact absurd hgt (by simpa [staleB] using hE p hp)
    · rw [if_neg hE]
      obtain ⟨p, hp⟩ := List.exists_mem_of_ne_nil _ hE
      rw [List.mem_filter] at hp
      exact ⟨fun _ => ⟨p, hp.1, by simpa [staleB] using hp.2⟩, fun _ => rfl⟩
  · rw [hcount]
    by_cases hE : c.filter (staleB now) = []
    · rw [if_pos hE]
      rw [List.filter_eq_nil_iff] at hE
      refine ⟨fun _ p hp => ?_, fun _ => rfl⟩
      have := hE p hp
      simp only [staleB, decide_eq_true_eq] at this
      omega
    · rw [if_neg hE]
      constructor
      · intro h
        exact absurd h (by decide)
      · intro hall
        exfalso
        apply hE
        rw [List.filter_eq_nil_iff]
        intro a ha
        simp only [staleB, decide_eq_true_eq]
        have := hall a ha
        omega
  · simp only [inactive_checker_sweep, sweepAux_spec]
    rw [List.mem_filter]
    refine ⟨hmem, ?_⟩
    have hns : staleB now2 (u2, s2) = false := by
      simp only [staleB, decide_eq_false_iff_not]
      omega
    rw [hns]
    rfl

/-- Witness for C8 at a concrete sweep: at time 200, sessions last seen at
0 and 150 are split into evicted and kept, and a fresh session survives. -/
theorem c8_liveness_sweep_witness :
    ("f", (⟨3, 170⟩ : Session)) ∈ [("f", (⟨3, 170⟩ : Session))] ∧
    200 - ((⟨3, 170⟩ : Session)).lastPing < 60 ∧
    ((inactive_checker_sweep 200 [("a", ⟨1, 0⟩), ("b", ⟨2, 150⟩)]).1 =
      List.filter (fun p => !staleB 200 p)
        [("a", ⟨1, 0⟩), ("b", ⟨2, 150⟩)] ∧
    (inactive_checker_sweep 200 [("a", ⟨1, 0⟩), ("b", ⟨2, 150⟩)]).2.1 =
      (List.filter (staleB 200) [("a", ⟨1, 0⟩), ("b", ⟨2, 150⟩)]).map
        Prod.fst ∧
    (inactive_checker_sweep 200 [("a", ⟨1, 0⟩), ("b", ⟨2, 150⟩)]).2.2.1 =
      (List.filter (staleB 200) [("a", ⟨1, 0⟩), ("b", ⟨2, 150⟩)]).map
        (fun p => p.2.conn) ∧
    ((inactive_checker_sweep 200
        [("a", ⟨1, 0⟩), ("b", ⟨2, 150⟩)]).2.2.2 = 1 ↔
      ∃ p ∈ [("a", (⟨1, 0⟩ : Session)), ("b", ⟨2, 150⟩)],
        200 - p.2.lastPing > 120) ∧
    ((inactive_checker_sweep 200
        [("a", ⟨1, 0⟩), ("b", ⟨2, 150⟩)]).2.2.2 = 0 ↔
      ∀ p ∈ [("a", (⟨1, 0⟩ : Session)), ("b", ⟨2, 150⟩)],
        200 - p.2.lastPing ≤ 120) ∧
    ("f", (⟨3, 170⟩ : Session)) ∈
      (inactive_checker_sweep 200 [("f", ⟨3, 170⟩)]).1) :=
  ⟨by decide, by decide,
    c8_liveness_sweep 200 [("a", ⟨1, 0⟩), ("b", ⟨2, 150⟩)]
      200 [("f", ⟨3, 170⟩)] "f" ⟨3, 170⟩ (by decide) (by decide)⟩

/-- C9 counterexample: the claim states that every failed connect closes the
socket.  On a transport error while establishing the connection the code
reports failure and returns without calling `close`, so the socket is not
closed. -/
theorem c9_counterexample :
    ChatClient_connect ⟨false, true, .noLine⟩ =
      { result := some (false, some "Cannot connect to server"),
        running := false, receiverStarted := false, pingerStarted := false,
        sockClosed := false } := rfl

/-- C9 amended: every failed connect (transport error, send error, no reply,
malformed reply, non-ok reply) reports failure with a reason, leaves
`running` false and starts neither background loop; all failure modes except
the initial transport error additionally close the socket (the transport
error path returns without closing); only an ok-status connect-response
reports success and starts the receive and ping loops. -/
theorem c9_connect_handshake
    (b1 : Bool) (r1 : ReadResult) (r2 : ReadResult)
    (a4 st4 e4 : Option String) (e5 : Option String)
    (h4 : ¬(a4 = some "connect" ∧ st4 = some "ok")) :
    ChatClient_connect ⟨false, b1, r1⟩ =
      { result := some (false, some "Cannot connect to server"),
        running := false, receiverStarted := false, pingerStarted := false,
        sockClosed := false } ∧
    ChatClient_connect ⟨true, false, r2⟩ =
      { result := some (false, some "Send error"), running := false,
        receiverStarted := false, pingerStarted := false,
        sockClosed := true } ∧
    ChatClient_connect ⟨true, true, .noLine⟩ =
      { result := some (false, some "Invalid response"), running := false,
        receiverStarted := false, pingerStarted := false,
        sockClosed := true } ∧
    ChatClient_connect ⟨true, true, .badJson⟩ =
      { result := some (false, some "Invalid response"), running := false,
        receiverStarted := false, pingerStarted := false,
        sockClosed := true } ∧
    ChatClient_connect ⟨true, true, .parsed a4 st4 e4⟩ =
      { result := some (false, some (e4.getD "unknown error")),
        running := false, receiverStarted := false, pingerStarted := false,
        sockClosed := true } ∧
    ChatClient_connect ⟨true, true, .parsed (some "connect") (some "ok")
        e5⟩ =
      { result := some (true, none), running := true,
        receiverStarted := true, pingerStarted := true,
        sockClosed := false } := by
  refine ⟨rfl, rfl, rfl, rfl, ?_, by simp [ChatClient_connect]⟩
  simp [ChatClient_connect, h4]

/-- Witness for C9 at a concrete error-status reply. -/
theorem c9_connect_handshake_witness :
    ¬((some "connect" : Option String) = some "connect" ∧
      (some "error" : Option String) = some "ok") ∧
    (ChatClient_connect ⟨false, true, .noLine⟩ =
      { result := some (false, some "Cannot connect to server"),
        running := false, receiverStarted := false, pingerStarted := false,
        sockClosed := false } ∧
    ChatClient_connect ⟨true, false, .noLine⟩ =
      { result := some (false, some "Send error"), running := false,
        receiverStarted := false, pingerStarted := false,
        sockClosed := true } ∧
    ChatClient_connect ⟨true, true, .noLine⟩ =
      { result := some (false, some "Invalid response"), running := false,
        receiverStarted := false, pingerStarted := false,
        sockClosed := true } ∧
    ChatClient_connect ⟨true, true, .badJson⟩ =
      { result := some (false, some "Invalid response"), running := false,
        receiverStarted := false, pingerStarted := false,
        sockClosed := true } ∧
    ChatClient_connect ⟨true, true,
        .parsed (some "connect") (some "error")
          (some "username already taken")⟩ =
      { result := some (false,
          some ((some "username already taken").getD "unknown error")),
        running := false, receiverStarted := false, pingerStarted := false,
        sockClosed := true } ∧
    ChatClient_connect ⟨true, true, .parsed (some "connect") (some "ok")
        none⟩ =
      { result := some (true, none), running := true,
        receiverStarted := true, pingerStarted := true,
        sockClosed := false }) :=
  ⟨by decide,
    c9_connect_handshake true .noLine .noLine (some "connect")
      (some "error") (some "username already taken") none (by decide)⟩

/-- C10: a zero-byte file produces no `file_transfer_data` record at all,
only the final `file_transfer_complete` record, and a receiver that accepted
the transfer is left with its state unchanged: no output file is created and
the pending entry is never removed. -/
theorem c10_empty_file (c : Nat) (s f : String) (st : UIState) :
    send_file_chunks c [] = [FTRecord.completeRec] ∧
    processAll s f st (send_file_chunks c []) = st := by
  have h : send_file_chunks c [] = [FTRecord.completeRec] := by
    rw [send_file_chunks, sendChunksFrom_eq]
    simp
  exact ⟨h, by rw [h]; rfl⟩

end MessagingApp
